import Mathlib

/-!
Verification development for the tadl DL-bus telemetry bridge.

Shallow embedding conventions:
* Go `time.Duration` and timestamps are modelled as `Int` (exact int64
  nanosecond values; overflow is modelled explicitly where Go clamps,
  namely in `time.Time.Sub`).
* Go `float64` temperature values are modelled as `ℚ` (the decoded
  values are exact decimal tenths, so rational arithmetic is the exact
  semantics of the computations the claims are about).
* Go integer division on durations truncates toward zero and is
  modelled by `Int.tdiv`.
* Byte slices are modelled as `List Nat` of byte values.
-/

namespace Tadl

/-- Bit symbols sent from the Manchester decoder to the framer
(`port.StateType`: High = 1, Low = 0, Invalid = -1). -/
inductive StateType
  | high
  | low
  | invalid
deriving DecidableEq, Repr

/-- Edge polarity of a GPIO line event (`port.EventType`). -/
inductive EventType
  | risingEdge
  | fallingEdge
deriving DecidableEq, Repr

/-- A GPIO line event (`port.Event`): a monotonic timestamp in
nanoseconds and the edge polarity. -/
structure Event where
  timestamp : Int
  type : EventType
deriving DecidableEq, Repr

namespace Manchester

/-- Decoding process state of the Manchester decoder
(`manchester.stateType`). -/
inductive MState
  | synchronizing
  | synchronized
deriving DecidableEq, Repr

/-- State of `manchester.Decoder` (the interval-multiplier variant in
`pkg/manchester/manchester.go`).  The fields `prevBit` and `cnt` of the
Go struct only feed logging and are omitted; the output channel `C` is
modelled by returning the emitted symbols from each step. -/
structure Decoder where
  state : MState
  eventSamples : List Int
  lastTimestamp : Int
  signalT : Int
  lastPeriodTimestamp : Int
  sensitivity : Int
deriving DecidableEq, Repr

/-- Count of event samples collected for clock discovery
(`eventSamples = 500` in the source). -/
def eventSampleCount : Nat := 500

/-- Running state of the `calcBitPeriods` loop: the two running sums,
the two running averages and the two sample counters of the Go code. -/
structure CalcState where
  halfSum : Int
  fullSum : Int
  halfBit : Int
  fullBit : Int
  ixHalf : Int
  ixFull : Int
deriving DecidableEq, Repr

/-- One iteration of the `calcBitPeriods` loop: a sample greater than
`halfBitPeriod + halfBitPeriod/2` is averaged into the full-bit
estimate, every other sample into the half-bit estimate.  Go division
of durations truncates toward zero (`Int.tdiv`). -/
def calcStep (s : CalcState) (t : Int) : CalcState :=
  if s.halfBit + Int.tdiv s.halfBit 2 < t then
    { s with fullSum := s.fullSum + t,
             fullBit := Int.tdiv (s.fullSum + t) s.ixFull,
             ixFull := s.ixFull + 1 }
  else
    { s with halfSum := s.halfSum + t,
             halfBit := Int.tdiv (s.halfSum + t) s.ixHalf,
             ixHalf := s.ixHalf + 1 }

/-- Ascending sort used by `calcBitPeriods` (`sort.Slice` on
durations).  Any correct sort produces the same list of integer
values; insertion sort is used because it reduces in the kernel. -/
def goSort (l : List Int) : List Int :=
  l.insertionSort (· ≤ ·)

/-- Transcription of `manchester.calcBitPeriods`: sort the samples
ascending, drop the lowest and the highest sample, take the smallest
remaining sample as initial half-bit estimate (and twice it as initial
full-bit estimate), then walk all remaining samples with `calcStep`.
The Go code indexes `samples[0]` unconditionally and is only called
with 500 samples; the empty case returns `(0, 0)` here and is
unreachable. -/
def calcBitPeriods (samples : List Int) : Int × Int :=
  match ((goSort samples).drop 1).dropLast with
  | [] => (0, 0)
  | h :: rest =>
    let fin := (h :: rest).foldl calcStep ⟨0, 0, h, 2 * h, 1, 1⟩
    (fin.halfBit, fin.fullBit)

/-- Sensitivity derived from the discovered half-bit period:
`time.Duration(float64(SignalT) * 0.6)`.  For the attainable duration
magnitudes the float64 product rounds to within a sub-nanosecond of
the exact value `3*T/5` and the `Duration` conversion truncates, so
the computation equals the truncation of `3*T/5`. -/
def sensitivityOf (t : Int) : Int := Int.tdiv (3 * t) 5

/-- Transcription of `Decoder.eventHandler`: the one-event transition
of the Manchester decoder, returning the successor state and the list
of symbols emitted on the channel `C` during the step. -/
def eventHandler (d : Decoder) (e : Event) : Decoder × List StateType :=
  let period := e.timestamp - d.lastTimestamp
  let d1 := { d with lastTimestamp := e.timestamp }
  match d.state with
  | .synchronizing =>
    if d.eventSamples.length < eventSampleCount then
      let samples := d.eventSamples ++ [period]
      if samples.length = eventSampleCount then
        let halfPeriod := (calcBitPeriods samples).1
        ({ d1 with signalT := halfPeriod,
                   lastPeriodTimestamp := -1,
                   sensitivity := sensitivityOf halfPeriod,
                   state := .synchronized,
                   eventSamples := [] }, [])
      else
        ({ d1 with eventSamples := samples }, [])
    else
      (d1, [])
  | .synchronized =>
    if d.lastPeriodTimestamp = -1 then
      if Int.tdiv (period - d.sensitivity) d.signalT < 1 then
        (d1, [])
      else
        ({ d1 with lastPeriodTimestamp := e.timestamp - d.signalT }, [])
    else
      let interval :=
        Int.tdiv (e.timestamp - d.lastPeriodTimestamp - d.sensitivity) d.signalT + 1
      if interval = 2 then
        ({ d1 with lastPeriodTimestamp := e.timestamp }, [])
      else if interval = 1 ∨ interval = 3 then
        match e.type with
        | .risingEdge =>
          ({ d1 with lastPeriodTimestamp := e.timestamp - d.signalT }, [.low])
        | .fallingEdge =>
          ({ d1 with lastPeriodTimestamp := e.timestamp - d.signalT }, [.high])
      else
        ({ d1 with lastPeriodTimestamp := -1 }, [.invalid])

/-- Specification-side transcription of the clock-discovery loop body:
identical to `calcStep` except that the classification threshold is
the exact rational bound, a sample is a full-bit sample when it
exceeds `1.5` times the current half-bit estimate. -/
def calcStepSpec (s : CalcState) (t : Int) : CalcState :=
  if 3 * s.halfBit < 2 * t then
    { s with fullSum := s.fullSum + t,
             fullBit := Int.tdiv (s.fullSum + t) s.ixFull,
             ixFull := s.ixFull + 1 }
  else
    { s with halfSum := s.halfSum + t,
             halfBit := Int.tdiv (s.halfSum + t) s.ixHalf,
             ixHalf := s.ixHalf + 1 }

/-- Specification-side clock discovery, following the spec wording:
sort ascending, drop the minimum and the maximum, take the smallest
remaining interval as the initial half-bit estimate, then classify
every remaining interval, those greater than `1.5` times the current
half-bit estimate are averaged into the full-bit estimate and all
others into the half-bit estimate. -/
def calcBitPeriodsSpec (samples : List Int) : Int × Int :=
  match ((goSort samples).drop 1).dropLast with
  | [] => (0, 0)
  | h :: rest =>
    let fin := (h :: rest).foldl calcStepSpec ⟨0, 0, h, 2 * h, 1, 1⟩
    (fin.halfBit, fin.fullBit)

end Manchester

namespace Dlbus

/-- Decoding process state of the DL-bus framer (`dlbus.stateType`). -/
inductive FState
  | synchronizing
  | synchronized
deriving DecidableEq, Repr

/-- State of the DL-bus framer (`dlbus.Handler` / `dlbus.ReadCloser`;
the channel-driven framer wired into the pipeline).  The frame mutex
`rl` guards concurrent reads and has no influence on the byte-level
state machine modelled here. -/
structure Framer where
  syncCounter : Nat
  state : FState
  rxBit : Nat
  rxRegister : Nat
  rxBuffer : List Nat
deriving DecidableEq, Repr

/-- Fresh framer as produced by `dlbus.New` / `dlbus.NewReader`. -/
def Framer.init : Framer :=
  { syncCounter := 0, state := .synchronizing, rxBit := 0,
    rxRegister := 0, rxBuffer := [] }

/-- Transcription of `reset`: clear the buffer and the sync counter
and fall back to synchronizing. -/
def Framer.reset (r : Framer) : Framer :=
  { r with rxBuffer := [], syncCounter := 0, state := .synchronizing }

/-- Transcription of `low`: start bits and low data bits. -/
def Framer.goLow (r : Framer) : Framer :=
  match r.rxBit with
  | 0 => { r with rxRegister := 0, rxBit := 1 }
  | 9 => r.reset
  | _ => { r with rxBit := r.rxBit + 1 }

/-- Transcription of `high`: data bits, stop bits and the start of a
new sync sequence. -/
def Framer.goHigh (r : Framer) : Framer :=
  match r.rxBit with
  | 0 => { r with state := .synchronizing, syncCounter := 1 }
  | 9 => { r with rxBuffer := r.rxBuffer ++ [r.rxRegister], rxBit := 0 }
  | _ => { r with rxRegister := r.rxRegister ||| (1 <<< (r.rxBit - 1)),
                  rxBit := r.rxBit + 1 }

/-- Transcription of `decoder`: dispatch a High or Low symbol.  The Go
switch has no Invalid arm here (Invalid is intercepted in `run`), so
an Invalid symbol leaves the state unchanged. -/
def Framer.decoder (r : Framer) (bit : StateType) : Framer :=
  match r.state with
  | .synchronizing =>
    match bit with
    | .high => { r with syncCounter := r.syncCounter + 1 }
    | .low =>
      if r.syncCounter < 16 then
        { r with syncCounter := 0 }
      else
        ({ r with state := .synchronized, rxBit := 0, rxBuffer := [] }).goLow
    | .invalid => r
  | .synchronized =>
    match bit with
    | .high => r.goHigh
    | .low => r.goLow
    | .invalid => r

/-- Transcription of the `run` loop body: Invalid resets the framer,
High and Low are fed to `decoder`. -/
def Framer.step (r : Framer) (bit : StateType) : Framer :=
  match bit with
  | .invalid => r.reset
  | _ => r.decoder bit

/-- Processing a whole symbol sequence through the framer. -/
def Framer.runBits (r : Framer) (bits : List StateType) : Framer :=
  bits.foldl Framer.step r

end Dlbus

/-- Signed 16-bit little-endian value of two bytes, as produced by
`int16(binary.LittleEndian.Uint16(...))`. -/
def sint16 (lo hi : Nat) : Int :=
  let u : Nat := lo % 256 + 256 * (hi % 256)
  if u < 32768 then (u : Int) else (u : Int) - 65536

namespace Datalogger

/-- Errors returned by the datalogger handlers.  `errEOF` models
`io.EOF` propagated from `Read` when the framer buffer is empty. -/
inductive DLError
  | errEOF
  | errInvalidSize
  | errUnsupportedDevice
  | errInvalidTemperature
deriving DecidableEq, Repr

/-- Dataframe of the UVR42 controller (`datalogger.UVR42Frame`).
Temperatures are exact rationals (tenths of a degree), the timestamp
is wall-clock nanoseconds with `0` playing the role of the Go zero
`time.Time`. -/
structure UVR42Frame where
  timeStamp : Int
  temperature1 : ℚ
  temperature2 : ℚ
  temperature3 : ℚ
  temperature4 : ℚ
  out1 : Bool
  out2 : Bool
  rotationSpeed : Int
deriving DecidableEq, Repr

/-- Zero value of `datalogger.UVR42Frame`, used both as the initial
`lastValue` of the handler and as the initial mqtt reference frame. -/
def zeroUVR42Frame : UVR42Frame :=
  { timeStamp := 0, temperature1 := 0, temperature2 := 0,
    temperature3 := 0, temperature4 := 0, out1 := false,
    out2 := false, rotationSpeed := 0 }

/-- Temperature bounds of the datalogger package (`tMax`, `tMin`). -/
def tMax : ℚ := 300
def tMin : ℚ := -50

/-- Maximum difference to the last measurement.  The constant of the
`datalogger` package is declared in a file that is not part of the
sources here; `pkg/uvr42` declares the same-named constant as `50` and
the guarded branch below is unreachable anyway because the
`datalogger` handler never assigns `lastValue`. -/
def maxDelta : ℚ := 50

/-- Transcription of `datalogger.UVR42Handler.Get` for one delivered
framer buffer.  `Read` copies at most 64 bytes of the buffer and
returns `io.EOF` on an empty buffer; `now` is the wall-clock value of
`time.Now()`.  The handler state `last` (`h.lastValue`) is never
written by this Go method, so the step returns the result alone. -/
def uvr42HandlerGet (last : UVR42Frame) (now : Int) (frame : List Nat) :
    Except DLError UVR42Frame :=
  if frame.length = 0 then .error .errEOF
  else
    let n := min frame.length 64
    if n ≠ 10 then .error .errInvalidSize
    else if frame.getD 0 0 ≠ 0x10 then .error .errUnsupportedDevice
    else
      let t1 : ℚ := (sint16 (frame.getD 1 0) (frame.getD 2 0) : ℚ) / 10
      let t2 : ℚ := (sint16 (frame.getD 3 0) (frame.getD 4 0) : ℚ) / 10
      let t3 : ℚ := (sint16 (frame.getD 5 0) (frame.getD 6 0) : ℚ) / 10
      let t4 : ℚ := (sint16 (frame.getD 7 0) (frame.getD 8 0) : ℚ) / 10
      let f : UVR42Frame :=
        { timeStamp := now, temperature1 := t1, temperature2 := t2,
          temperature3 := t3, temperature4 := t4,
          out1 := decide (0 < frame.getD 9 0 &&& 0x20),
          out2 := decide (0 < frame.getD 9 0 &&& 0x40),
          rotationSpeed := 0 }
      if last.timeStamp ≠ 0 ∧
          (maxDelta < |t1 - last.temperature1| ∨
           maxDelta < |t2 - last.temperature2| ∨
           maxDelta < |t3 - last.temperature3| ∨
           maxDelta < |t4 - last.temperature4|) then
        .error .errInvalidTemperature
      else if tMax < t1 ∨ tMax < t2 ∨ tMax < t3 ∨ tMax < t4 ∨
          t1 < tMin ∨ t2 < tMin ∨ t3 < tMin ∨ t4 < tMin then
        .error .errInvalidTemperature
      else
        .ok f

end Datalogger

namespace Uvr42

open Datalogger (DLError)

/-- Dataframe of the `pkg/uvr42` handler (`uvr42.UVR42`). -/
structure UVR42 where
  time : Int
  temp1 : ℚ
  temp2 : ℚ
  temp3 : ℚ
  temp4 : ℚ
  out1 : Bool
  out2 : Bool
deriving DecidableEq, Repr

/-- Zero value of `uvr42.UVR42`, the initial `lastValue` of the
handler (Go zero time is modelled as timestamp `0`). -/
def zeroUVR42 : UVR42 :=
  { time := 0, temp1 := 0, temp2 := 0, temp3 := 0, temp4 := 0,
    out1 := false, out2 := false }

/-- Constants of the `pkg/uvr42` package. -/
def tMax : ℚ := 300
def tMin : ℚ := -50
def maxDelta : ℚ := 50

/-- Transcription of `uvr42.Handler.Get` for one delivered framer
buffer: returns the call result together with the successor value of
`h.lastValue` (which this method updates on success only). -/
def handlerGet (last : UVR42) (now : Int) (frame : List Nat) :
    Except DLError UVR42 × UVR42 :=
  if frame.length = 0 then (.error .errEOF, last)
  else
    let n := min frame.length 64
    if n ≠ 10 then (.error .errInvalidSize, last)
    else if frame.getD 0 0 ≠ 0x10 then (.error .errUnsupportedDevice, last)
    else
      let t1 : ℚ := (sint16 (frame.getD 1 0) (frame.getD 2 0) : ℚ) / 10
      let t2 : ℚ := (sint16 (frame.getD 3 0) (frame.getD 4 0) : ℚ) / 10
      let t3 : ℚ := (sint16 (frame.getD 5 0) (frame.getD 6 0) : ℚ) / 10
      let t4 : ℚ := (sint16 (frame.getD 7 0) (frame.getD 8 0) : ℚ) / 10
      let f : UVR42 :=
        { time := now, temp1 := t1, temp2 := t2, temp3 := t3, temp4 := t4,
          out1 := decide (0 < frame.getD 9 0 &&& 0x20),
          out2 := decide (0 < frame.getD 9 0 &&& 0x40) }
      if last.time ≠ 0 ∧
          (maxDelta < |t1 - last.temp1| ∨
           maxDelta < |t2 - last.temp2| ∨
           maxDelta < |t3 - last.temp3| ∨
           maxDelta < |t4 - last.temp4|) then
        (.error .errInvalidTemperature, last)
      else if tMax < t1 ∨ tMax < t2 ∨ tMax < t3 ∨ tMax < t4 ∨
          t1 < tMin ∨ t2 < tMin ∨ t3 < tMin ∨ t4 < tMin then
        (.error .errInvalidTemperature, last)
      else
        (.ok f, f)

end Uvr42

namespace App

open Datalogger

/-- Largest and smallest values of a Go `time.Duration` (int64). -/
def maxInt64 : Int := 2 ^ 63 - 1
def minInt64 : Int := -(2 ^ 63)

/-- Difference of two wall-clock instants as computed by
`time.Time.Sub`: the exact difference clamped to the `Duration`
range. -/
def timeSub (t u : Int) : Int :=
  if maxInt64 < t - u then maxInt64
  else if t - u < minInt64 then minInt64
  else t - u

/-- The mqtt-relevant configuration (`config.MQTTConfig`): the
heartbeat interval in nanoseconds (a `time.Duration`) and the delta
threshold in Kelvin (a `float64`, modelled exactly). -/
structure MQTTConfig where
  interval : Int
  deltaKelvin : ℚ
deriving DecidableEq, Repr

/-- Transcription of `App.validateMeasurements` for UVR42 frames: `m`
is the reference frame held in `app.mqttData.data`, `f` the newly
decoded frame.  The result is the publish decision together with the
new content of `app.mqttData.data` (replaced by `f` exactly when the
frame is published). -/
def validateMeasurements (cfg : MQTTConfig) (m f : UVR42Frame) :
    Bool × UVR42Frame :=
  let deltaT := timeSub f.timeStamp m.timeStamp
  let deltaK :=
    max (max (max |f.temperature1 - m.temperature1|
                  |f.temperature2 - m.temperature2|)
             |f.temperature3 - m.temperature3|)
        |f.temperature4 - m.temperature4|
  let deltaOut := f.out1 ≠ m.out1 ∨ f.out2 ≠ m.out2
  if cfg.interval ≤ deltaT ∨ cfg.deltaKelvin ≤ deltaK ∨ deltaOut then
    (true, f)
  else
    (false, m)

/-- Kinds of datalogger handlers `App.init` can instantiate; `uvr42`
is the only supported type. -/
inductive DLKind
  | uvr42Kind
deriving DecidableEq, Repr

/-- The datalogger dispatch of `App.init`: the switch on
`config.DataLogger.Type` assigns a handler only for `"uvr42"`.  For
any other value the default arm only logs and `app.dl` stays nil. -/
def selectDatalogger (t : String) : Option DLKind :=
  if t = "uvr42" then some .uvr42Kind else none

/-- Outcome of the startup steps of `App.init` that depend on the
configured datalogger type. -/
inductive InitOutcome
  | ok
  | fail
  | crashed
deriving DecidableEq, Repr

/-- Outcome of `App.init` after the datalogger switch: with a known
type the handler is set and `Connect` (which always returns nil for
the UVR42 handler) succeeds; with an unknown type the switch only
logs, no error is returned, `app.dl` remains a nil interface and the
following `app.dl.Connect(app.dlbus)` call is a method call on a nil
interface value, which aborts the process with a runtime panic
instead of returning an error. -/
def initDataloggerOutcome (t : String) : InitOutcome :=
  match selectDatalogger t with
  | some _ => .ok
  | none => .crashed

end App

/-! ## Supporting lemmas -/

namespace Manchester

/-- The integer threshold `halfBit + halfBit/2` of the Go code agrees
with the exact rational threshold `1.5 * halfBit` for nonnegative
half-bit estimates. -/
theorem calcThreshold_iff (hb t : Int) (h : 0 ≤ hb) :
    hb + Int.tdiv hb 2 < t ↔ 3 * hb < 2 * t := by
  rw [Int.tdiv_eq_ediv h (by norm_num)]
  omega

/-- One Go loop iteration and one spec iteration of clock discovery
agree whenever the running half-bit estimate is nonnegative. -/
theorem calcStep_eq_calcStepSpec (s : CalcState) (t : Int) (h : 0 ≤ s.halfBit) :
    calcStep s t = calcStepSpec s t := by
  unfold calcStep calcStepSpec
  by_cases hc : 3 * s.halfBit < 2 * t
  · rw [if_pos ((calcThreshold_iff s.halfBit t h).mpr hc), if_pos hc]
  · rw [if_neg fun hx => hc ((calcThreshold_iff s.halfBit t h).mp hx), if_neg hc]

/-- The loop invariant of clock discovery: the half-bit running sum
and estimate stay nonnegative and the half counter stays positive. -/
theorem calcStep_invariant (s : CalcState) (t : Int) (ht : 0 ≤ t)
    (h1 : 0 ≤ s.halfSum) (h2 : 0 ≤ s.halfBit) (h3 : 0 < s.ixHalf) :
    0 ≤ (calcStep s t).halfSum ∧ 0 ≤ (calcStep s t).halfBit ∧
      0 < (calcStep s t).ixHalf := by
  unfold calcStep
  by_cases hc : s.halfBit + Int.tdiv s.halfBit 2 < t
  · rw [if_pos hc]
    exact ⟨h1, h2, h3⟩
  · rw [if_neg hc]
    refine ⟨?_, ?_, ?_⟩
    · show 0 ≤ s.halfSum + t
      positivity
    · show 0 ≤ Int.tdiv (s.halfSum + t) s.ixHalf
      exact Int.tdiv_nonneg (by positivity) (le_of_lt h3)
    · show 0 < s.ixHalf + 1
      omega

/-- Folding the Go loop and the spec loop over nonnegative samples
from an invariant-satisfying state gives the same result. -/
theorem foldl_calcStep_eq (l : List Int) : ∀ s : CalcState,
    (∀ t ∈ l, 0 ≤ t) → 0 ≤ s.halfSum → 0 ≤ s.halfBit → 0 < s.ixHalf →
    l.foldl calcStep s = l.foldl calcStepSpec s := by
  induction l with
  | nil => intro s _ _ _ _; rfl
  | cons t l ih =>
    intro s hl h1 h2 h3
    have ht : 0 ≤ t := hl t (List.mem_cons_self t l)
    have hinv := calcStep_invariant s t ht h1 h2 h3
    simp only [List.foldl_cons]
    rw [calcStep_eq_calcStepSpec s t h2]
    rw [← calcStep_eq_calcStepSpec s t h2]
    exact ih (calcStep s t) (fun x hx => hl x (List.mem_cons_of_mem t hx))
      hinv.1 hinv.2.1 hinv.2.2

/-- Membership in the trimmed sorted sample list implies membership in
the original sample list. -/
theorem mem_trimmed_sorted {samples : List Int} {x : Int}
    (hx : x ∈ ((goSort samples).drop 1).dropLast) : x ∈ samples := by
  have h1 : x ∈ goSort samples :=
    List.mem_of_mem_drop (List.dropLast_subset _ hx)
  exact (List.perm_insertionSort (· ≤ ·) samples).mem_iff.mp h1

end Manchester

namespace Dlbus

/-- In the synchronizing state a run of High symbols only increments
the sync counter. -/
theorem runBits_replicate_high (n : Nat) : ∀ r : Framer,
    r.state = .synchronizing →
    r.runBits (List.replicate n .high) =
      { r with syncCounter := r.syncCounter + n } := by
  induction n with
  | zero => intro r _; simp [Framer.runBits]
  | succ n ih =>
    intro r hr
    have hstep : Framer.step r .high = { r with syncCounter := r.syncCounter + 1 } := by
      unfold Framer.step Framer.decoder
      rw [hr]
    simp only [List.replicate_succ, Framer.runBits, List.foldl_cons]
    rw [hstep]
    have h2 := ih { r with syncCounter := r.syncCounter + 1 } (by exact hr)
    simp only [Framer.runBits] at h2
    rw [h2]
    congr 1
    omega

end Dlbus

/-! ## Claim theorems -/

open Manchester Dlbus Datalogger Uvr42 App

/-- C5 (counterexample): in the Synchronized state with half-bit
period 10 and sensitivity 6 and reference 0, a falling edge at t = 10
has interval multiplier 1 and emits High; the immediately following
falling edge at t = 15 again has interval multiplier 1 (previous
interval was 1), yet the decoder emits High once more and stays in the
Synchronized state with a set reference, instead of emitting Invalid
and returning to Synchronizing as the claim demands. -/
theorem c5_counterexample :
    let d0 : Decoder := ⟨.synchronized, [], 0, 10, 0, 6⟩
    let s1 := eventHandler d0 ⟨10, .fallingEdge⟩
    let s2 := eventHandler s1.1 ⟨15, .fallingEdge⟩
    Int.tdiv ((10 : Int) - 0 - 6) 10 + 1 = 1 ∧
    Int.tdiv ((15 : Int) - 0 - 6) 10 + 1 = 1 ∧
    s1.2 = [.high] ∧ s1.1.lastPeriodTimestamp = 0 ∧
    s2.2 = [.high] ∧ s2.1.state = .synchronized ∧
    s2.1.lastPeriodTimestamp ≠ -1 := by
  decide

/-- C5 (amended): in the Synchronized state with an established
reference, an event whose interval multiplier is 1 or 3 always emits
exactly one bit (High on a falling edge, Low on a rising edge) and
keeps the decoder synchronized, regardless of the previous interval;
the decoder emits Invalid and drops back to reference re-acquisition
(the Synchronizing condition `lastPeriodTimestamp = -1`) exactly when
the multiplier is outside `{1, 2, 3}`. -/
theorem c5_amended (d : Decoder) (e : Event)
    (hst : d.state = .synchronized) (hlp : d.lastPeriodTimestamp ≠ -1) :
    (Int.tdiv (e.timestamp - d.lastPeriodTimestamp - d.sensitivity) d.signalT + 1 = 1 ∨
     Int.tdiv (e.timestamp - d.lastPeriodTimestamp - d.sensitivity) d.signalT + 1 = 3 →
      (eventHandler d e).2 = [if e.type = .fallingEdge then .high else .low] ∧
      (eventHandler d e).1.state = .synchronized ∧
      (eventHandler d e).1.lastPeriodTimestamp = e.timestamp - d.signalT) ∧
    (Int.tdiv (e.timestamp - d.lastPeriodTimestamp - d.sensitivity) d.signalT + 1 ≠ 1 ∧
     Int.tdiv (e.timestamp - d.lastPeriodTimestamp - d.sensitivity) d.signalT + 1 ≠ 2 ∧
     Int.tdiv (e.timestamp - d.lastPeriodTimestamp - d.sensitivity) d.signalT + 1 ≠ 3 →
      (eventHandler d e).2 = [.invalid] ∧
      (eventHandler d e).1.state = .synchronized ∧
      (eventHandler d e).1.lastPeriodTimestamp = -1) := by
  unfold eventHandler
  rw [hst]
  simp only [if_neg hlp]
  constructor
  · intro h13
    have hne2 : ¬(Int.tdiv (e.timestamp - d.lastPeriodTimestamp - d.sensitivity) d.signalT + 1 = 2) := by
      rcases h13 with h | h <;> omega
    rw [if_neg hne2, if_pos h13]
    cases htype : e.type <;> simp [htype]
  · intro ⟨h1, h2, h3⟩
    rw [if_neg h2, if_neg (by tauto)]
    exact ⟨rfl, rfl, rfl⟩

/-- C5 (witness): the amended theorem applied at the concrete state of
the counterexample trace, a falling edge with interval multiplier 1
right after a falling edge with interval multiplier 1. -/
theorem c5_amended_witness :
    (⟨.synchronized, [], 10, 10, 0, 6⟩ : Decoder).state = .synchronized ∧
    (⟨.synchronized, [], 10, 10, 0, 6⟩ : Decoder).lastPeriodTimestamp ≠ -1 ∧
    ((Int.tdiv ((15 : Int) - 0 - 6) 10 + 1 = 1 ∨
      Int.tdiv ((15 : Int) - 0 - 6) 10 + 1 = 3) ∧
     (eventHandler ⟨.synchronized, [], 10, 10, 0, 6⟩ ⟨15, .fallingEdge⟩).2 =
       [if (EventType.fallingEdge = EventType.fallingEdge) then StateType.high else StateType.low] ∧
     (eventHandler ⟨.synchronized, [], 10, 10, 0, 6⟩ ⟨15, .fallingEdge⟩).1.state = .synchronized ∧
     (eventHandler ⟨.synchronized, [], 10, 10, 0, 6⟩ ⟨15, .fallingEdge⟩).1.lastPeriodTimestamp = 15 - 10) :=
  ⟨rfl, by decide,
    by
      have h := (c5_amended ⟨.synchronized, [], 10, 10, 0, 6⟩ ⟨15, .fallingEdge⟩ rfl (by decide)).1
        (Or.inl (by decide))
      exact ⟨Or.inl (by decide), h.1, h.2.1, h.2.2⟩⟩

/-- C6 (counterexample): after clock discovery (Synchronizing, with
half-bit period 10 and sensitivity 6), a rising edge whose computed
interval multiplier is 2 causes the transition to Synchronized (the
reference is set to 10), and a falling edge whose interval multiplier
is 3 also causes the transition; the claim allows the transition only
for interval multiplier 2 with a falling edge. -/
theorem c6_counterexample :
    let d1 : Decoder := ⟨.synchronized, [], 0, 10, -1, 6⟩
    (Int.tdiv ((20 : Int) - 0 - 6) 10 + 1 = 2 ∧
     (eventHandler d1 ⟨20, .risingEdge⟩).1.lastPeriodTimestamp = 10 ∧
     (eventHandler d1 ⟨20, .risingEdge⟩).1.lastPeriodTimestamp ≠ -1) ∧
    (Int.tdiv ((30 : Int) - 0 - 6) 10 + 1 = 3 ∧
     (eventHandler d1 ⟨30, .fallingEdge⟩).1.lastPeriodTimestamp = 20 ∧
     (eventHandler d1 ⟨30, .fallingEdge⟩).1.lastPeriodTimestamp ≠ -1) := by
  decide

/-- C6 (amended): in the reference-acquisition condition after clock
discovery (`lastPeriodTimestamp = -1`), the decoder sets the reference
to `timestamp - T` (transitioning to Synchronized) exactly when the
truncated quotient `(elapsed - sensitivity) / T` is at least 1, that
is when the computed interval multiplier is at least 2, regardless of
the edge polarity; nothing is emitted either way. -/
theorem c6_amended (d : Decoder) (e : Event)
    (hst : d.state = .synchronized) (hlp : d.lastPeriodTimestamp = -1) :
    (1 ≤ Int.tdiv (e.timestamp - d.lastTimestamp - d.sensitivity) d.signalT →
      (eventHandler d e).1.lastPeriodTimestamp = e.timestamp - d.signalT ∧
      (eventHandler d e).2 = []) ∧
    (Int.tdiv (e.timestamp - d.lastTimestamp - d.sensitivity) d.signalT < 1 →
      (eventHandler d e).1 = { d with lastTimestamp := e.timestamp } ∧
      (eventHandler d e).2 = []) := by
  unfold eventHandler
  rw [hst]
  simp only [if_pos hlp]
  constructor
  · intro h
    rw [if_neg (by omega)]
    exact ⟨rfl, rfl⟩
  · intro h
    rw [if_pos h]
    exact ⟨rfl, rfl⟩

/-- C6 (witness): the amended theorem applied to a rising edge with
interval multiplier 2 from the reference-acquisition condition. -/
theorem c6_amended_witness :
    (⟨.synchronized, [], 0, 10, -1, 6⟩ : Decoder).state = .synchronized ∧
    (⟨.synchronized, [], 0, 10, -1, 6⟩ : Decoder).lastPeriodTimestamp = -1 ∧
    (1 : Int) ≤ Int.tdiv ((20 : Int) - 0 - 6) 10 ∧
    (eventHandler ⟨.synchronized, [], 0, 10, -1, 6⟩ ⟨20, .risingEdge⟩).1.lastPeriodTimestamp = 20 - 10 ∧
    (eventHandler ⟨.synchronized, [], 0, 10, -1, 6⟩ ⟨20, .risingEdge⟩).2 = [] :=
  ⟨rfl, rfl, by decide,
    by
      have h := (c6_amended ⟨.synchronized, [], 0, 10, -1, 6⟩ ⟨20, .risingEdge⟩ rfl rfl).1 (by decide)
      exact ⟨h.1, h.2⟩⟩

/-- C8 (counterexample): starting from a fresh framer, sixteen High
bits and a Low put it into Receiving; sixteen further consecutive High
bits followed by a Low then leave the framer in the synchronizing
state with a non-empty buffer `[255]` and `rxBit = 0`: the final Low,
although directly preceded by sixteen consecutive High bits, is not
treated as a start bit (ten of the High bits were consumed as data and
stop bits of the open byte, so the sync counter only reached 7). -/
theorem c8_counterexample :
    let fin := Framer.runBits Framer.init
      (List.replicate 16 .high ++ [.low] ++ List.replicate 16 .high ++ [.low])
    fin.state = .synchronizing ∧ fin.rxBuffer = [255] ∧
    fin.rxBit ≠ 1 ∧ fin.syncCounter = 0 := by
  decide

/-- C8 (amended): whenever the framer is in the synchronizing
(AwaitingSync) state, any sixteen or more consecutive High bits
followed by a Low cause that Low to be treated as the start bit of the
first byte: the receive buffer is cleared, the state becomes
Receiving (synchronized), and byte assembly starts at the triggering
start bit (`rxBit = 1`, cleared shift register).  From the Receiving
state part of the High run can be consumed as data and stop bits, so
the synchronizing state is required. -/
theorem c8_amended (r : Framer) (n : Nat)
    (hst : r.state = .synchronizing) (hn : 16 ≤ n) :
    let fin := Framer.runBits r (List.replicate n .high ++ [.low])
    fin.state = .synchronized ∧ fin.rxBuffer = [] ∧
    fin.rxBit = 1 ∧ fin.rxRegister = 0 := by
  intro fin
  have hhigh := runBits_replicate_high n r hst
  have hfin : fin = Framer.step { r with syncCounter := r.syncCounter + n } .low := by
    show Framer.runBits r (List.replicate n .high ++ [.low]) = _
    unfold Framer.runBits
    rw [List.foldl_append]
    have : List.foldl Framer.step r (List.replicate n .high) =
        { r with syncCounter := r.syncCounter + n } := hhigh
    rw [this]
    rfl
  rw [hfin]
  unfold Framer.step Framer.decoder
  simp only [hst]
  rw [if_neg (by omega)]
  exact ⟨rfl, rfl, rfl, rfl⟩

/-- C8 (witness): the amended theorem applied to a fresh framer and a
run of exactly sixteen High bits. -/
theorem c8_amended_witness :
    Framer.init.state = .synchronizing ∧ (16 : Nat) ≤ 16 ∧
    ((Framer.runBits Framer.init (List.replicate 16 .high ++ [.low])).state = .synchronized ∧
     (Framer.runBits Framer.init (List.replicate 16 .high ++ [.low])).rxBuffer = [] ∧
     (Framer.runBits Framer.init (List.replicate 16 .high ++ [.low])).rxBit = 1 ∧
     (Framer.runBits Framer.init (List.replicate 16 .high ++ [.low])).rxRegister = 0) :=
  ⟨rfl, le_refl 16, c8_amended Framer.init 16 rfl (le_refl 16)⟩

/-- Numeric value of the upper clamp bound of `time.Time.Sub`. -/
theorem maxInt64_eq : maxInt64 = 9223372036854775807 := by
  norm_num [App.maxInt64]

/-- Numeric value of the lower clamp bound of `time.Time.Sub`. -/
theorem minInt64_eq : minInt64 = -9223372036854775808 := by
  norm_num [App.minInt64]

/-- The heartbeat comparison against the clamped difference computed
by `time.Time.Sub` agrees with the comparison against the exact
difference, for every interval representable as a nonnegative
duration. -/
theorem le_timeSub_iff (itv t u : Int) (h0 : 0 ≤ itv) (h1 : itv ≤ maxInt64) :
    itv ≤ timeSub t u ↔ itv ≤ t - u := by
  unfold timeSub
  rw [maxInt64_eq] at h1 ⊢
  rw [minInt64_eq]
  split_ifs with ha hb <;> omega

/-- C1: the delta gate publishes a frame `F` against the reference `M`
(and then replaces the reference by `F`) exactly when the timestamp
difference reaches the heartbeat interval, or some channel temperature
moved by at least `delta_kelvin`, or an output state changed; and a
frame carrying any realistic wall-clock timestamp is always published
against the zero reference frame installed at startup (the very first
decoded frame), because `time.Time.Sub` saturates at the maximal
duration. -/
theorem c1_delta_gate (cfg : MQTTConfig) (m f : UVR42Frame)
    (h0 : 0 ≤ cfg.interval) (h1 : cfg.interval ≤ maxInt64) :
    ((validateMeasurements cfg m f).1 = true ↔
      (cfg.interval ≤ f.timeStamp - m.timeStamp ∨
       cfg.deltaKelvin ≤ |f.temperature1 - m.temperature1| ∨
       cfg.deltaKelvin ≤ |f.temperature2 - m.temperature2| ∨
       cfg.deltaKelvin ≤ |f.temperature3 - m.temperature3| ∨
       cfg.deltaKelvin ≤ |f.temperature4 - m.temperature4| ∨
       f.out1 ≠ m.out1 ∨ f.out2 ≠ m.out2)) ∧
    ((validateMeasurements cfg m f).1 = true →
      (validateMeasurements cfg m f).2 = f) ∧
    ((validateMeasurements cfg m f).1 = false →
      (validateMeasurements cfg m f).2 = m) ∧
    (m = zeroUVR42Frame → maxInt64 ≤ f.timeStamp →
      (validateMeasurements cfg m f).1 = true) := by
  have hiff : (cfg.interval ≤ timeSub f.timeStamp m.timeStamp ∨
      cfg.deltaKelvin ≤
        max (max (max |f.temperature1 - m.temperature1|
                      |f.temperature2 - m.temperature2|)
                 |f.temperature3 - m.temperature3|)
            |f.temperature4 - m.temperature4| ∨
      (f.out1 ≠ m.out1 ∨ f.out2 ≠ m.out2)) ↔
      (cfg.interval ≤ f.timeStamp - m.timeStamp ∨
       cfg.deltaKelvin ≤ |f.temperature1 - m.temperature1| ∨
       cfg.deltaKelvin ≤ |f.temperature2 - m.temperature2| ∨
       cfg.deltaKelvin ≤ |f.temperature3 - m.temperature3| ∨
       cfg.deltaKelvin ≤ |f.temperature4 - m.temperature4| ∨
       f.out1 ≠ m.out1 ∨ f.out2 ≠ m.out2) := by
    rw [le_timeSub_iff _ _ _ h0 h1, le_max_iff, le_max_iff, le_max_iff]
    tauto
  refine ⟨?_, ?_, ?_, ?_⟩
  · simp only [validateMeasurements]
    split_ifs with hc
    · exact iff_of_true rfl (hiff.mp hc)
    · exact iff_of_false (by simp) fun hr => hc (hiff.mpr hr)
  · intro h
    simp only [validateMeasurements] at h ⊢
    split_ifs at h ⊢
    simp_all
  · intro h
    simp only [validateMeasurements] at h ⊢
    split_ifs at h ⊢
    simp_all
  · intro hm hf
    simp only [validateMeasurements]
    split_ifs with hc
    · rfl
    · exfalso
      apply hc
      refine Or.inl ((le_timeSub_iff _ _ _ h0 h1).mpr ?_)
      subst hm
      show cfg.interval ≤ f.timeStamp - (0 : Int)
      have := le_trans h1 hf
      omega

/-- C1 (witness): the gate at a concrete configuration, with the zero
reference frame and a frame stamped at the clamp bound: the first
frame is published. -/
theorem c1_delta_gate_witness :
    (0 : Int) ≤ 10 ∧ (10 : Int) ≤ maxInt64 ∧
    (validateMeasurements ⟨10, 1⟩ zeroUVR42Frame
      ⟨maxInt64, 0, 0, 0, 0, false, false, 0⟩).1 = true :=
  ⟨by norm_num, by rw [maxInt64_eq]; norm_num,
    (c1_delta_gate ⟨10, 1⟩ zeroUVR42Frame ⟨maxInt64, 0, 0, 0, 0, false, false, 0⟩
      (by norm_num) (by rw [maxInt64_eq]; norm_num)).2.2.2 rfl (le_refl _)⟩

/-- C2 (counterexample): with `delta_kelvin = 0` and a heartbeat
interval of 60 time units, a frame only 2 time units after the
reference, with identical temperatures and identical output states, IS
published (the code compares `deltaK >= DeltaKelvin` and the maximal
absolute temperature difference is always `>= 0`), contradicting the
claim that such a frame is not published. -/
theorem c2_counterexample :
    (validateMeasurements ⟨60, 0⟩ ⟨1, 20, 20, 20, 20, false, false, 0⟩
      ⟨3, 20, 20, 20, 20, false, false, 0⟩).1 = true ∧
    (3 : Int) - 1 < 60 := by
  constructor
  · norm_num [validateMeasurements, timeSub, maxInt64_eq, minInt64_eq]
  · norm_num

/-- C2 (amended): with `mqtt.delta_kelvin` configured as 0 the gate
publishes every frame unconditionally, because the computed maximal
absolute temperature difference is always at least 0; the configured
value 0 therefore does not mean publish only on heartbeat. -/
theorem c2_amended (cfg : MQTTConfig) (m f : UVR42Frame)
    (h : cfg.deltaKelvin = 0) :
    (validateMeasurements cfg m f).1 = true := by
  simp only [validateMeasurements]
  rw [if_pos]
  exact Or.inr (Or.inl (by
    rw [h]
    exact le_trans (abs_nonneg _) (le_max_right _ _)))

/-- C2 (witness): the amended theorem at a concrete configuration and
frame pair. -/
theorem c2_amended_witness :
    (⟨5, 0⟩ : MQTTConfig).deltaKelvin = 0 ∧
    (validateMeasurements ⟨5, 0⟩ ⟨0, 1, 2, 3, 4, true, false, 0⟩
      ⟨7, 1, 2, 3, 4, true, false, 0⟩).1 = true :=
  ⟨rfl, c2_amended ⟨5, 0⟩ ⟨0, 1, 2, 3, 4, true, false, 0⟩
    ⟨7, 1, 2, 3, 4, true, false, 0⟩ rfl⟩

/-- C7: clock discovery as implemented agrees with the specified
algorithm.  First, for nonnegative interval samples the Go loop of
`calcBitPeriods` computes exactly the spec description (sort
ascending, drop minimum and maximum, start from the smallest remaining
interval, classify every interval against the exact rational threshold
of 1.5 times the current half-bit estimate, averaging into the
full-bit or half-bit estimate).  Second, the 500th collected sample
triggers the transition to Synchronized with `SignalT` fixed to the
computed half-bit estimate, `sensitivity` derived from it and the
reference cleared.  Third, the derived sensitivity is `0.6 * T` up to
the sub-nanosecond truncation of the duration type. -/
theorem c7_clock_discovery (samples : List Int) (d : Decoder) (e : Event)
    (hnn : ∀ t ∈ samples, 0 ≤ t) (hst : d.state = .synchronizing)
    (hlen : d.eventSamples.length = 499) :
    calcBitPeriods samples = calcBitPeriodsSpec samples ∧
    ((eventHandler d e).1.state = .synchronized ∧
     (eventHandler d e).1.signalT =
       (calcBitPeriods (d.eventSamples ++ [e.timestamp - d.lastTimestamp])).1 ∧
     (eventHandler d e).1.sensitivity = sensitivityOf (eventHandler d e).1.signalT ∧
     (eventHandler d e).1.lastPeriodTimestamp = -1 ∧
     (eventHandler d e).2 = []) ∧
    (∀ T : Int, 0 ≤ T →
      (sensitivityOf T : ℚ) ≤ 3 / 5 * (T : ℚ) ∧
      3 / 5 * (T : ℚ) - 1 < (sensitivityOf T : ℚ)) := by
  refine ⟨?_, ?_, ?_⟩
  · unfold calcBitPeriods calcBitPeriodsSpec
    cases htrim : ((goSort samples).drop 1).dropLast with
    | nil => rfl
    | cons h rest =>
      have hmem : ∀ x ∈ h :: rest, 0 ≤ x := fun x hx =>
        hnn x (mem_trimmed_sorted (htrim ▸ hx))
      have hh : 0 ≤ h := hmem h (List.mem_cons_self _ _)
      dsimp only
      rw [foldl_calcStep_eq (h :: rest) ⟨0, 0, h, 2 * h, 1, 1⟩ hmem (le_refl 0) hh one_pos]
  · simp [eventHandler, hst, hlen, eventSampleCount]
  · intro T hT
    have h5 : Int.tdiv (3 * T) 5 = (3 * T) / 5 :=
      Int.tdiv_eq_ediv (by positivity) (by norm_num)
    have hb1 : 5 * ((3 * T) / 5) ≤ 3 * T := by omega
    have hb2 : 3 * T < 5 * ((3 * T) / 5) + 5 := by omega
    have hc1 : (5 : ℚ) * (((3 * T) / 5 : Int) : ℚ) ≤ 3 * (T : ℚ) := by
      exact_mod_cast hb1
    have hc2 : 3 * (T : ℚ) < 5 * (((3 * T) / 5 : Int) : ℚ) + 5 := by
      exact_mod_cast hb2
    unfold sensitivityOf
    rw [h5]
    constructor <;> linarith

/-- C7 (witness): the calcBitPeriods agreement at the concrete sample
list `[9, 10, 14, 18, 100]`, the discovery transition for a decoder
holding 499 samples, and the sensitivity bounds at `T = 10`. -/
theorem c7_clock_discovery_witness :
    (∀ t ∈ ([9, 10, 14, 18, 100] : List Int), 0 ≤ t) ∧
    calcBitPeriods [9, 10, 14, 18, 100] = calcBitPeriodsSpec [9, 10, 14, 18, 100] ∧
    ((eventHandler ⟨.synchronizing, List.replicate 499 7, 0, 0, 0, 0⟩ ⟨3, .fallingEdge⟩).1.state
       = .synchronized ∧
     (eventHandler ⟨.synchronizing, List.replicate 499 7, 0, 0, 0, 0⟩ ⟨3, .fallingEdge⟩).1.sensitivity
       = sensitivityOf
         (eventHandler ⟨.synchronizing, List.replicate 499 7, 0, 0, 0, 0⟩ ⟨3, .fallingEdge⟩).1.signalT ∧
     (eventHandler ⟨.synchronizing, List.replicate 499 7, 0, 0, 0, 0⟩ ⟨3, .fallingEdge⟩).1.lastPeriodTimestamp
       = -1) ∧
    ((sensitivityOf 10 : ℚ) ≤ 3 / 5 * (10 : ℚ) ∧
     3 / 5 * ((10 : Int) : ℚ) - 1 < (sensitivityOf 10 : ℚ)) := by
  have h := c7_clock_discovery [9, 10, 14, 18, 100]
    ⟨.synchronizing, List.replicate 499 7, 0, 0, 0, 0⟩ ⟨3, .fallingEdge⟩
    (by decide) rfl
    (by show (List.replicate 499 (7 : Int)).length = 499; simp only [List.length_replicate])
  refine ⟨by decide, h.1, ⟨h.2.1.1, h.2.1.2.2.1, h.2.1.2.2.2.1⟩, ?_⟩
  have h10 := h.2.2 10 (by norm_num)
  exact_mod_cast h10

/-- C3: for every non-empty buffer delivered by the framer, the UVR42
parser of the datalogger package reports `ErrInvalidSize` exactly when
the frame length is not 10; for 10-byte frames it reports
`ErrUnsupportedDevice` exactly when the first byte is not `0x10`; and
for 10-byte frames with the correct device byte it reports
`ErrInvalidTemperature` exactly when some decoded temperature lies
outside `[-50, 300]`, the checks being applied in that order.  The
handler never assigns `lastValue`, so the reference frame is the zero
frame throughout. -/
theorem c3_parser_error_order (now : Int) (frame : List Nat) (hne : frame ≠ []) :
    (uvr42HandlerGet zeroUVR42Frame now frame = .error .errInvalidSize ↔
      frame.length ≠ 10) ∧
    (frame.length = 10 →
      (uvr42HandlerGet zeroUVR42Frame now frame = .error .errUnsupportedDevice ↔
        frame.getD 0 0 ≠ 0x10)) ∧
    (frame.length = 10 → frame.getD 0 0 = 0x10 →
      (uvr42HandlerGet zeroUVR42Frame now frame = .error .errInvalidTemperature ↔
        (((sint16 (frame.getD 1 0) (frame.getD 2 0) : ℚ) / 10 < -50 ∨
          300 < (sint16 (frame.getD 1 0) (frame.getD 2 0) : ℚ) / 10) ∨
         ((sint16 (frame.getD 3 0) (frame.getD 4 0) : ℚ) / 10 < -50 ∨
          300 < (sint16 (frame.getD 3 0) (frame.getD 4 0) : ℚ) / 10) ∨
         ((sint16 (frame.getD 5 0) (frame.getD 6 0) : ℚ) / 10 < -50 ∨
          300 < (sint16 (frame.getD 5 0) (frame.getD 6 0) : ℚ) / 10) ∨
         ((sint16 (frame.getD 7 0) (frame.getD 8 0) : ℚ) / 10 < -50 ∨
          300 < (sint16 (frame.getD 7 0) (frame.getD 8 0) : ℚ) / 10)))) := by
  have h0 : ¬ frame.length = 0 := by
    intro h
    exact hne (List.length_eq_zero.mp h)
  refine ⟨?_, ?_, ?_⟩
  · by_cases hL : frame.length = 10
    · have hmin : ¬ (min frame.length 64 ≠ 10) := by omega
      simp only [uvr42HandlerGet, if_neg h0, if_neg hmin]
      split_ifs <;> simp [hL]
    · have hmin : min frame.length 64 ≠ 10 := by omega
      simp only [uvr42HandlerGet, if_neg h0, if_pos hmin]
      simp [hL]
  · intro hL
    have hmin : ¬ (min frame.length 64 ≠ 10) := by omega
    simp only [uvr42HandlerGet, if_neg h0, if_neg hmin]
    by_cases hdev : frame.getD 0 0 ≠ 0x10
    · rw [if_pos hdev]
      exact iff_of_true rfl hdev
    · rw [if_neg hdev]
      have h16 : frame.getD 0 0 = 0x10 := not_not.mp hdev
      split_ifs <;> exact iff_of_false (by simp) fun h => h h16
  · intro hL hdev
    have hmin : ¬ (min frame.length 64 ≠ 10) := by omega
    have hdev2 : ¬ (frame.getD 0 0 ≠ 0x10) := fun h => h hdev
    have hzero : ¬ (zeroUVR42Frame.timeStamp ≠ 0 ∧
        (Datalogger.maxDelta <
           |(sint16 (frame.getD 1 0) (frame.getD 2 0) : ℚ) / 10 - zeroUVR42Frame.temperature1| ∨
         Datalogger.maxDelta <
           |(sint16 (frame.getD 3 0) (frame.getD 4 0) : ℚ) / 10 - zeroUVR42Frame.temperature2| ∨
         Datalogger.maxDelta <
           |(sint16 (frame.getD 5 0) (frame.getD 6 0) : ℚ) / 10 - zeroUVR42Frame.temperature3| ∨
         Datalogger.maxDelta <
           |(sint16 (frame.getD 7 0) (frame.getD 8 0) : ℚ) / 10 - zeroUVR42Frame.temperature4|)) := by
      intro h
      exact h.1 rfl
    simp only [uvr42HandlerGet, if_neg h0, if_neg hmin, if_neg hdev2, if_neg hzero]
    split_ifs with hrange
    · simp only [Datalogger.tMax, Datalogger.tMin] at hrange
      exact iff_of_true rfl (by tauto)
    · simp only [Datalogger.tMax, Datalogger.tMin] at hrange
      push_neg at hrange
      refine iff_of_false (by simp) ?_
      intro hr
      rcases hrange with ⟨a1, a2, a3, a4, b1, b2, b3, b4⟩
      rcases hr with (h | h) | (h | h) | (h | h) | (h | h) <;> linarith

/-- C3 (witness): the error ordering evaluated at the short frame of
scenario S4. -/
theorem c3_parser_error_order_witness :
    ([0x10, 0x2C, 0x01] : List Nat) ≠ [] ∧
    (uvr42HandlerGet zeroUVR42Frame 0 [0x10, 0x2C, 0x01] = .error .errInvalidSize ↔
      ([0x10, 0x2C, 0x01] : List Nat).length ≠ 10) :=
  ⟨by simp, (c3_parser_error_order 0 [0x10, 0x2C, 0x01] (by simp)).1⟩

/-- C4: for every 10-byte frame with device byte `0x10` whose decoded
temperatures lie in `[-50, 300]`, the parser returns the algebraic
decoding: each temperature is the signed 16-bit little-endian value of
its byte pair divided by 10, and the outputs are bits 5 and 6 of byte
9. -/
theorem c4_parser_decodes (now : Int) (b1 b2 b3 b4 b5 b6 b7 b8 b9 : Nat)
    (h1 : -50 ≤ (sint16 b1 b2 : ℚ) / 10 ∧ (sint16 b1 b2 : ℚ) / 10 ≤ 300)
    (h2 : -50 ≤ (sint16 b3 b4 : ℚ) / 10 ∧ (sint16 b3 b4 : ℚ) / 10 ≤ 300)
    (h3 : -50 ≤ (sint16 b5 b6 : ℚ) / 10 ∧ (sint16 b5 b6 : ℚ) / 10 ≤ 300)
    (h4 : -50 ≤ (sint16 b7 b8 : ℚ) / 10 ∧ (sint16 b7 b8 : ℚ) / 10 ≤ 300) :
    uvr42HandlerGet zeroUVR42Frame now [0x10, b1, b2, b3, b4, b5, b6, b7, b8, b9] =
      .ok { timeStamp := now,
            temperature1 := (sint16 b1 b2 : ℚ) / 10,
            temperature2 := (sint16 b3 b4 : ℚ) / 10,
            temperature3 := (sint16 b5 b6 : ℚ) / 10,
            temperature4 := (sint16 b7 b8 : ℚ) / 10,
            out1 := decide (0 < b9 &&& 0x20),
            out2 := decide (0 < b9 &&& 0x40),
            rotationSpeed := 0 } := by
  have h0 : ¬ ([0x10, b1, b2, b3, b4, b5, b6, b7, b8, b9] : List Nat).length = 0 := by
    simp
  have hmin : ¬ (min ([0x10, b1, b2, b3, b4, b5, b6, b7, b8, b9] : List Nat).length 64 ≠ 10) := by
    simp
  have hdev : ¬ (([0x10, b1, b2, b3, b4, b5, b6, b7, b8, b9] : List Nat).getD 0 0 ≠ 0x10) := by
    simp
  simp only [uvr42HandlerGet, if_neg h0, if_neg hmin, if_neg hdev]
  rw [if_neg (by intro h; exact h.1 rfl)]
  rw [if_neg (by
    simp only [Datalogger.tMax, Datalogger.tMin, List.getD_cons_succ, List.getD_cons_zero]
    push_neg
    exact ⟨h1.2, h2.2, h3.2, h4.2, h1.1, h2.1, h3.1, h4.1⟩)]
  simp only [List.getD_cons_succ, List.getD_cons_zero]

/-- C4 (witness): scenario S1, the concrete frame
`10 2C 01 58 02 84 03 B0 04 60` decodes to temperatures 30.0, 60.0,
90.0, 120.0 with both outputs on. -/
theorem c4_parser_decodes_witness :
    ((-50 : ℚ) ≤ (sint16 0x2C 0x01 : ℚ) / 10 ∧ (sint16 0x2C 0x01 : ℚ) / 10 ≤ 300) ∧
    uvr42HandlerGet zeroUVR42Frame 0
        [0x10, 0x2C, 0x01, 0x58, 0x02, 0x84, 0x03, 0xB0, 0x04, 0x60] =
      .ok { timeStamp := 0, temperature1 := 30, temperature2 := 60,
            temperature3 := 90, temperature4 := 120,
            out1 := true, out2 := true, rotationSpeed := 0 } := by
  have e1 : sint16 0x2C 0x01 = 300 := by decide
  have e2 : sint16 0x58 0x02 = 600 := by decide
  have e3 : sint16 0x84 0x03 = 900 := by decide
  have e4 : sint16 0xB0 0x04 = 1200 := by decide
  constructor
  · rw [e1]
    norm_num
  · have h := c4_parser_decodes 0 0x2C 0x01 0x58 0x02 0x84 0x03 0xB0 0x04 0x60
      (by rw [e1]; norm_num) (by rw [e2]; norm_num) (by rw [e3]; norm_num)
      (by rw [e4]; norm_num)
    rw [h, e1, e2, e3, e4]
    norm_num
    exact ⟨by decide, by decide⟩

/-- C9: with an unknown `datalogger.type` the switch in `App.init`
selects no handler, and startup ends in a runtime crash (nil-interface
method call) rather than in an error return from `init`; with the
supported type `uvr42` startup proceeds. -/
theorem c9_unknown_type_crashes :
    selectDatalogger "xyz" = none ∧
    initDataloggerOutcome "xyz" = .crashed ∧
    initDataloggerOutcome "xyz" ≠ .fail ∧
    initDataloggerOutcome "uvr42" = .ok := by
  refine ⟨?_, ?_, ?_, ?_⟩ <;> decide

/-- C10: once the `pkg/uvr42` handler has successfully returned a
frame, a later 10-byte frame with the correct device byte whose
decoded temperatures differ from the stored last frame by more than 50
in some channel is rejected with `ErrInvalidTemperature`, without the
stored frame being replaced (even when all decoded temperatures lie in
`[-50, 300]`, since the rejection precedes the range check).
Additionally, the stored last value is replaced exactly by successful
results. -/
theorem c10_delta_to_last (last : Uvr42.UVR42) (now : Int) (frame : List Nat)
    (h0 : last.time ≠ 0) (hlen : frame.length = 10) (hhead : frame.getD 0 0 = 0x10)
    (hdelta : 50 < |(sint16 (frame.getD 1 0) (frame.getD 2 0) : ℚ) / 10 - last.temp1| ∨
              50 < |(sint16 (frame.getD 3 0) (frame.getD 4 0) : ℚ) / 10 - last.temp2| ∨
              50 < |(sint16 (frame.getD 5 0) (frame.getD 6 0) : ℚ) / 10 - last.temp3| ∨
              50 < |(sint16 (frame.getD 7 0) (frame.getD 8 0) : ℚ) / 10 - last.temp4|) :
    (handlerGet last now frame).1 = .error .errInvalidTemperature ∧
    (handlerGet last now frame).2 = last ∧
    (∀ (l2 : Uvr42.UVR42) (n2 : Int) (fr2 : List Nat) (g : Uvr42.UVR42),
      (handlerGet l2 n2 fr2).1 = .ok g → (handlerGet l2 n2 fr2).2 = g) := by
  have hne0 : ¬ frame.length = 0 := by omega
  have hmin : ¬ (min frame.length 64 ≠ 10) := by omega
  have hdev : ¬ (frame.getD 0 0 ≠ 0x10) := fun h => h hhead
  have hres : handlerGet last now frame = (.error .errInvalidTemperature, last) := by
    simp only [handlerGet, if_neg hne0, if_neg hmin, if_neg hdev]
    rw [if_pos ⟨h0, by simpa [Uvr42.maxDelta] using hdelta⟩]
  refine ⟨by rw [hres], by rw [hres], ?_⟩
  intro l2 n2 fr2 g hg
  simp only [handlerGet] at hg ⊢
  split_ifs at hg ⊢
  simp_all

/-- C10 (witness): a handler whose last successful frame had all
temperatures 100 rejects the S1 frame (temperature 30 in channel 1,
all channels within range) with `ErrInvalidTemperature` and keeps its
stored frame. -/
theorem c10_delta_to_last_witness :
    (⟨500, 100, 100, 100, 100, false, false⟩ : Uvr42.UVR42).time ≠ 0 ∧
    (50 : ℚ) < |(sint16 0x2C 0x01 : ℚ) / 10 - 100| ∧
    (handlerGet ⟨500, 100, 100, 100, 100, false, false⟩ 600
        [0x10, 0x2C, 0x01, 0x58, 0x02, 0x84, 0x03, 0xB0, 0x04, 0x60]).1 =
      .error .errInvalidTemperature ∧
    (handlerGet ⟨500, 100, 100, 100, 100, false, false⟩ 600
        [0x10, 0x2C, 0x01, 0x58, 0x02, 0x84, 0x03, 0xB0, 0x04, 0x60]).2 =
      ⟨500, 100, 100, 100, 100, false, false⟩ := by
  have e1 : sint16 0x2C 0x01 = 300 := by decide
  have hd : (50 : ℚ) < |(sint16 0x2C 0x01 : ℚ) / 10 - 100| := by
    rw [e1]
    norm_num
  have h := c10_delta_to_last ⟨500, 100, 100, 100, 100, false, false⟩ 600
    [0x10, 0x2C, 0x01, 0x58, 0x02, 0x84, 0x03, 0xB0, 0x04, 0x60]
    (by norm_num) (by simp) (by simp) (Or.inl hd)
  exact ⟨by norm_num, hd, h.1, h.2.1⟩

end Tadl
